import Mathlib

/-!
Shallow embedding of the script-extensible plugin host of CopyQ
(`src/item/itemloaderscript.cpp`): the `ItemLoaderScript` loader, the
`ItemSaverScript` saver chain node, the metadata property resolver
(`value` / `stringValue`), the log prefixing helper and the
`sendMessage` bridge slot, together with theorems checking the
specification's claims about them.

The script engine (Qt Script) is embedded abstractly: a script value is
`PVal`, a property of the handler object is a `Member` (a plain value or
a callable whose behaviour is an arbitrary function returning either a
result or a thrown value), and the engine's uncaught-exception state is
an `EngineState`.  Following the Qt Script semantics of
`QScriptValue::call`, calling a function that throws returns the thrown
value and leaves the engine's uncaught-exception flag set; only
`clearExceptions` (reached through `processUncaughtException`) resets it.
-/

/-- Model of `QVariantMap` item data: an ordered map from MIME-type-like
string keys to byte payloads (spec ItemRecord). -/
abbrev ItemRecord := List (String × List Nat)

/-- Model of `QString` results that distinguishes a null string from an
empty one, as `QString::isNull` does (the source tests `text.isNull()`). -/
inductive QStr where
  | nullStr
  | strv (s : String)
  deriving DecidableEq

/-- Whether the string is the null `QString`. -/
def QStr.isNull : QStr → Bool
  | QStr.nullStr => true
  | QStr.strv _ => false

/-- Underlying text of the string (empty for the null string). -/
def QStr.val : QStr → String
  | QStr.nullStr => ""
  | QStr.strv s => s

/-- Model of a `QScriptValue` that is not a handler object with members:
the invalid value `QScriptValue()`, `undefined`, `null`, primitives, a
marshaled item record (an object), or a thrown `Error` object. -/
inductive PVal where
  | invalid
  | undef
  | nullv
  | boolv (b : Bool)
  | num (n : Int)
  | str (s : String)
  | dataObj (d : ItemRecord)
  | errObj (msg : String)
  deriving DecidableEq

/-- Model of `QScriptValue::isValid`. -/
def PVal.isValid : PVal → Bool
  | PVal.invalid => false
  | _ => true

/-- Model of `QScriptValue::isUndefined`. -/
def PVal.isUndefined : PVal → Bool
  | PVal.undef => true
  | _ => false

/-- Model of `QScriptValue::isNull`. -/
def PVal.isNull : PVal → Bool
  | PVal.nullv => true
  | _ => false

/-- Model of `QScriptValue::isObject` on a `PVal`: marshaled records and
`Error` objects are objects, primitives and `undefined`/`null` are not. -/
def PVal.isObject : PVal → Bool
  | PVal.dataObj _ => true
  | PVal.errObj _ => true
  | _ => false

/-- Model of `QScriptValue::toString` (ECMA-262 ToString).  Strings
produced by the script convert to non-null `QString`s; only the invalid
value converts to a null string. -/
def PVal.toQStr : PVal → QStr
  | PVal.invalid => QStr.nullStr
  | PVal.undef => QStr.strv "undefined"
  | PVal.nullv => QStr.strv "null"
  | PVal.boolv b => QStr.strv (if b then "true" else "false")
  | PVal.num n => QStr.strv (toString n)
  | PVal.str s => QStr.strv s
  | PVal.dataObj _ => QStr.strv "[object Object]"
  | PVal.errObj m => QStr.strv m

/-- Model of one property of the handler object, as returned by
`QScriptValue::property`: either a plain (non-callable) value or a
function, whose behaviour maps the argument list to a returned value
(`Except.ok`) or a thrown value (`Except.error`). -/
inductive Member where
  | plain (v : PVal)
  | fn (f : List PVal → Except PVal PVal)

/-- Model of `QScriptValue::isFunction` on a property. -/
def Member.isFn : Member → Bool
  | Member.fn _ => true
  | Member.plain _ => false

/-- Property map of a script object (the HandlerObject's members). -/
abbrev HObj := List (String × Member)

/-- Model of the loader's `m_obj` field: a `QScriptValue` that is either
a script object carrying members or some other (non-member-bearing)
value. -/
inductive LVal where
  | pv (v : PVal)
  | hobj (props : HObj)

/-- Model of `QScriptValue::property` on `m_obj`: a missing property, or
a property of a non-object, is the invalid value. -/
def lookupProp : HObj → String → Member
  | [], _ => Member.plain PVal.invalid
  | (k, m) :: rest, nm => if k = nm then m else lookupProp rest nm

/-- Property of an `LVal` (see `lookupProp`). -/
def propOf : LVal → String → Member
  | LVal.pv _, _ => Member.plain PVal.invalid
  | LVal.hobj props, nm => lookupProp props nm

/-- Model of `QScriptValue::isObject` on `m_obj`. -/
def LVal.isObject : LVal → Bool
  | LVal.pv v => v.isObject
  | LVal.hobj _ => true

/-- Engine exception state: `some e` when `QScriptEngine` has the
uncaught exception value `e`, `none` otherwise. -/
abbrev EngineState := Option PVal

/-- Modelled from the spec: severity levels of the host logger
(`common/log.h` is not part of the sources), at least
note, warning and error. -/
inductive LogLevel where
  | note
  | warning
  | error
  deriving DecidableEq

/-- A LogEvent: final text handed to the global `::log` together with
its severity.  The plugin identity is already embedded in the text by
`ItemLoaderScript::log`. -/
structure LogEvent where
  text : String
  level : LogLevel
  deriving DecidableEq

/-- Label prepended by `ItemLoaderScript::log`:
`"scripts::" + m_id + ": "`. -/
def logLabel (idStr : String) : String := "scripts::" ++ idStr ++ ": "

/-- Model of `QString::replace("\n", lbl)`: every newline character is
replaced by `lbl` (the newline itself is removed). -/
def replaceNewlines (lbl s : String) : String :=
  String.mk (s.data.foldr (fun c acc => if c = '\n' then lbl.data ++ acc else c :: acc) [])

/-- Text transformation of `ItemLoaderScript::log`: prepend the label,
then replace every newline by the label. -/
def logTransform (idStr text : String) : String :=
  replaceNewlines (logLabel idStr) (logLabel idStr ++ text)

/-- Log event produced by `ItemLoaderScript::log` for a plugin with
identity `idStr`. -/
def mkLog (idStr text : String) (lvl : LogLevel) : LogEvent :=
  LogEvent.mk (logTransform idStr text) lvl

/-- Model of `QScriptValue::call` on a function property: per the Qt
Script semantics, a call that throws returns the thrown value and sets
the engine's uncaught-exception state; a normal return leaves the state
untouched. -/
def callFn (f : List PVal → Except PVal PVal) (args : List PVal) (st : EngineState) :
    PVal × EngineState :=
  match f args with
  | Except.ok v => (v, st)
  | Except.error e => (e, some e)

/-- Value of a property after the optional zero-argument invocation of
`ItemLoaderScript::value`: a plain value is used as-is, a function is
called (`value.call(m_obj, QScriptValueList())`). -/
def callMember (m : Member) (args : List PVal) (st : EngineState) : PVal × EngineState :=
  match m with
  | Member.plain v => (v, st)
  | Member.fn f => callFn f args st

/-- Model of `ItemLoaderScript::processUncaughtException`: when the
engine has an uncaught exception, log its string form at warning level
and clear the exception state, reporting that an exception was handled. -/
def processUncaught (idStr : String) (st : EngineState) : Option LogEvent × EngineState :=
  match st with
  | none => (none, none)
  | some e => (some (mkLog idStr e.toQStr.val LogLevel.warning), none)

/-- Modelled from the spec: `Scriptable::fromDataMap` (the `Scriptable`
class is not part of the sources) marshals an item record into the
script's value representation, losslessly. -/
def fromDataMap (d : ItemRecord) : PVal := PVal.dataObj d

/-- Modelled from the spec: `Scriptable::toDataMap` (not part of the
sources) is the inverse marshaling; a value that does not represent a
record yields an empty record. -/
def toDataMap : PVal → ItemRecord
  | PVal.dataObj d => d
  | _ => []

/-- Behaviour of the inner saver (`ItemSaverInterface`) for the two item
data operations the script can intercept; the remaining operations
(`saveItems`, `canRemoveItems`, `canMoveItems`, `itemsRemovedByUser`)
are pure passthrough in `ItemSaverScript` and carry no claim.
`copyItemFn` models `copyItem` (returns a new record), `transformFn`
models `transformItemData` (the in-place mutation, as a function of the
record). -/
structure ItemSaver where
  copyItemFn : ItemRecord → ItemRecord
  transformFn : ItemRecord → ItemRecord

/-- The saver chain node `ItemSaverScript`: wraps an inner saver and
holds a reference to the handler object. -/
structure ItemSaverScript where
  m_saver : ItemSaver
  m_obj : LVal

/-- Model of the private `ItemSaverScript::transformItemData(fnName,
itemData)` helper: look up the hook; if it is not a function, keep the
record; otherwise call it on the marshaled record; if the call's result
is `undefined` or `null`, keep the record; otherwise replace the record
by `toDataMap(result)`.  The helper contains no logging call and never
inspects the engine's exception state. -/
def scriptTransform (obj : LVal) (fnName : String) (st : EngineState) (itemData : ItemRecord) :
    ItemRecord × EngineState × List LogEvent :=
  match propOf obj fnName with
  | Member.plain _ => (itemData, st, [])
  | Member.fn f =>
      let r := callFn f [fromDataMap itemData] st
      if r.1.isUndefined || r.1.isNull then (itemData, r.2, [])
      else (toDataMap r.1, r.2, [])

/-- Model of `ItemSaverScript::copyItem`: first the inner saver's
`copyItem`, then the `"copyItem"` script hook. -/
def ItemSaverScript.copyItem (n : ItemSaverScript) (st : EngineState) (rec : ItemRecord) :
    ItemRecord × EngineState × List LogEvent :=
  scriptTransform n.m_obj "copyItem" st (n.m_saver.copyItemFn rec)

/-- Model of `ItemSaverScript::transformItemData`: first the inner
saver's `transformItemData`, then the `"transformItemData"` script
hook. -/
def ItemSaverScript.transformItemData (n : ItemSaverScript) (st : EngineState) (rec : ItemRecord) :
    ItemRecord × EngineState × List LogEvent :=
  scriptTransform n.m_obj "transformItemData" st (n.m_saver.transformFn rec)

/-- State of one `ItemLoaderScript` after construction.  Note the field
order of the source (`m_obj`, `m_baseName`, `m_script`, `m_id`); the
constructor's init list runs in this declaration order. -/
structure Loader where
  m_obj : LVal
  m_baseName : String
  m_script : String
  m_id : String

/-- Global factory slot `copyq_script` after evaluating the script:
absent, bound to a non-function value, or bound to a function whose
zero-argument behaviour returns a loader value or throws. -/
inductive FactorySlot where
  | absent
  | nonFn (v : LVal)
  | fnSlot (b : Except PVal LVal)

/-- Modelled from the spec: outcome of `Scriptable::eval` (the
`Scriptable` class is not part of the sources), which evaluates the
source text in the engine: the resulting binding of the global
`copyq_script` symbol, the engine's exception state after evaluation,
and the top-level evaluation result (which the constructor discards). -/
structure EvalOutcome where
  factorySlot : FactorySlot
  raised : EngineState
  evalResult : LVal

/-- Characters kept by the identity sanitizer `[^a-zA-Z0-9_]`. -/
def isIdentChar (c : Char) : Bool := c.isAlpha || c.isDigit || c = '_'

/-- Model of `m_baseName.replace(QRegExp("[^a-zA-Z0-9_]"), "_")`: every
character outside `[A-Za-z0-9_]` becomes an underscore. -/
def sanitizeId (s : String) : String :=
  String.mk (s.data.map (fun c => if isIdentChar c then c else '_'))

/-- File-name part of a path (characters after the last slash). -/
def qFileName (path : String) : String :=
  String.mk (path.data.foldl (fun acc c => if c = '/' then [] else acc ++ [c]) [])

/-- Model of `QFileInfo::baseName`: the file name up to, but not
including, the first dot. -/
def qBaseName (path : String) : String :=
  String.mk ((qFileName path).data.takeWhile (fun c => c ≠ '.'))

/-- Model of the `ItemLoaderScript` constructor.  `script` is the file
content already read (a file that cannot be opened reads as empty).
Note that `m_id( m_baseName.replace(...) )` mutates `m_baseName` in
place (`QString::replace` operates on `this` and returns a reference),
so after construction `m_baseName` equals the sanitized identity, not
the raw base name.  For a non-empty script the engine state starts from
the evaluation outcome; if the factory slot holds a function it is
called (even with an exception pending, which the call does not clear);
finally `processUncaughtException` logs a pending exception at warning
level, clears it and resets `m_obj` to the invalid value. -/
def makeLoader (path script : String) (o : EvalOutcome) :
    Loader × EngineState × List LogEvent :=
  let idStr := sanitizeId (qBaseName path)
  if script = "" then
    (Loader.mk (LVal.pv PVal.invalid) idStr script idStr, none, [])
  else
    let p : LVal × EngineState :=
      match o.factorySlot with
      | FactorySlot.absent => (LVal.pv PVal.invalid, o.raised)
      | FactorySlot.nonFn v => (v, o.raised)
      | FactorySlot.fnSlot b =>
          match b with
          | Except.ok v => (v, o.raised)
          | Except.error e => (LVal.pv e, some e)
    match processUncaught idStr p.2 with
    | (some ev, st1) => (Loader.mk (LVal.pv PVal.invalid) idStr script idStr, st1, [ev])
    | (none, st1) => (Loader.mk p.1 idStr script idStr, st1, [])

/-- Model of `ItemLoaderScript::isLoaded`: true iff `m_obj` is an
object. -/
def isLoaded (l : Loader) : Bool := l.m_obj.isObject

/-- Model of `createItemLoaderScript`: construct the loader and return
it only when it is loaded, `none` (a null pointer) otherwise. -/
def createItemLoaderScript (path script : String) (o : EvalOutcome) : Option Loader :=
  let l := (makeLoader path script o).1
  if isLoaded l then some l else none

/-- Model of `ItemLoaderScript::value`: resolve the property on
`m_obj`, invoke it with zero arguments when it is a function, then run
`processUncaughtException`; if an exception was handled, the result is
the invalid value. -/
def loaderValue (l : Loader) (st : EngineState) (nm : String) :
    PVal × EngineState × List LogEvent :=
  let r := callMember (propOf l.m_obj nm) [] st
  match processUncaught l.m_id r.2 with
  | (some ev, st1) => (PVal.invalid, st1, [ev])
  | (none, st1) => (r.1, st1, [])

/-- Model of `ItemLoaderScript::stringValue`: when the resolved value is
valid and its string conversion is non-null, return that text; in every
other case return the default. -/
def stringValue (l : Loader) (st : EngineState) (nm deflt : String) :
    String × EngineState × List LogEvent :=
  let r := loaderValue l st nm
  if r.1.isValid then
    let t := r.1.toQStr
    if t.isNull then (deflt, r.2.1, r.2.2) else (t.val, r.2.1, r.2.2)
  else (deflt, r.2.1, r.2.2)

/-- Model of `ItemLoaderScript::name`: `stringValue("name", m_baseName)`
— note that `m_baseName` was mutated at construction and holds the
sanitized identity. -/
def nameOf (l : Loader) (st : EngineState) : String × EngineState × List LogEvent :=
  stringValue l st "name" l.m_baseName

/-- Result of `ItemLoaderScript::transformSaver`: either the identical
inner saver (no new node) or a freshly constructed chain node. -/
inductive TransformSaverResult where
  | unchanged (s : ItemSaver)
  | wrapped (n : ItemSaverScript)

/-- Model of `ItemLoaderScript::transformSaver`: wrap the saver in an
`ItemSaverScript` exactly when `m_obj` has a `copyItem` or a
`transformItemData` function property; otherwise return the saver
itself. -/
def transformSaver (l : Loader) (saver : ItemSaver) : TransformSaverResult :=
  if (propOf l.m_obj "copyItem").isFn || (propOf l.m_obj "transformItemData").isFn then
    TransformSaverResult.wrapped (ItemSaverScript.mk saver l.m_obj)
  else
    TransformSaverResult.unchanged saver

/-- Modelled from the spec: the message codes of the sandbox protocol
(`common/commandstatus.h` is not part of the sources): an error code, a
bad-syntax code, an exception code, and any other code. -/
inductive MessageCode where
  | cmdError
  | cmdBadStx
  | cmdExc
  | otherCode (n : Int)
  deriving DecidableEq

/-- Model of the `ItemLoaderScript::sendMessage` slot: an empty message
produces no log output at all; otherwise error, bad-syntax and
exception codes log at warning level and every other code logs a
note.  The message byte array is modelled by its UTF-8 text, whose
emptiness coincides with the byte array's. -/
def sendMessageSlot (idStr message : String) (code : MessageCode) : List LogEvent :=
  if message = "" then []
  else
    match code with
    | MessageCode.cmdError => [mkLog idStr message LogLevel.warning]
    | MessageCode.cmdBadStx => [mkLog idStr message LogLevel.warning]
    | MessageCode.cmdExc => [mkLog idStr message LogLevel.warning]
    | MessageCode.otherCode _ => [mkLog idStr message LogLevel.note]

/-- Inner saver whose `copyItem` and `transformItemData` behaviours keep
the record unchanged; used as a concrete inner saver in examples. -/
def idSaver : ItemSaver := ItemSaver.mk (fun r => r) (fun r => r)

/-- A concrete item record with one text payload. -/
def c1Rec : ItemRecord := [("text/plain", [104, 105])]

/-- Handler object whose `transformItemData` hook always throws an
`Error` value. -/
def c1Obj : LVal :=
  LVal.hobj [("transformItemData", Member.fn (fun _ => Except.error (PVal.errObj "Error: boom")))]

/-- Evaluation outcome with no factory symbol, no exception and a
non-object evaluation result. -/
def demoOutcome : EvalOutcome :=
  EvalOutcome.mk FactorySlot.absent none (LVal.pv PVal.invalid)

/-- Evaluation outcome binding `copyq_script` to a non-function empty
handler object. -/
def c2Outcome : EvalOutcome :=
  EvalOutcome.mk (FactorySlot.nonFn (LVal.hobj [])) none (LVal.pv PVal.invalid)

/-- Evaluation outcome with the factory symbol absent but an object-like
top-level evaluation result. -/
def c3Outcome : EvalOutcome :=
  EvalOutcome.mk FactorySlot.absent none (LVal.hobj [("name", Member.plain (PVal.str "X"))])

/-- Evaluation outcome whose factory function returns an empty handler
object. -/
def c3wOutcome : EvalOutcome :=
  EvalOutcome.mk (FactorySlot.fnSlot (Except.ok (LVal.hobj []))) none (LVal.pv PVal.invalid)

/-- Zero-argument metadata function returning the string "v". -/
def c4fnOk : List PVal → Except PVal PVal := fun _ => Except.ok (PVal.str "v")

/-- Loader whose handler object has one function member `x`. -/
def c4Loader : Loader := Loader.mk (LVal.hobj [("x", Member.fn c4fnOk)]) "p" "s" "p"

/-- Hook returning `undefined`. -/
def c5fn : List PVal → Except PVal PVal := fun _ => Except.ok PVal.undef

/-- Handler object property map with a `copyItem` hook returning
`undefined`. -/
def c5Props : HObj := [("copyItem", Member.fn c5fn)]

/-- Loader whose handler object has only a plain `name` member (no
`copyItem` and no `transformItemData` function). -/
def c6Loader : Loader := Loader.mk (LVal.hobj [("name", Member.plain (PVal.str "X"))]) "p" "s" "p"

/-- Constructed loader fields: `m_baseName` and `m_id` both hold the
sanitized base name of the script file path, because the constructor's
`QString::replace` mutates `m_baseName` in place. -/
theorem makeLoader_baseName_id (path script : String) (o : EvalOutcome) :
    ((makeLoader path script o).1).m_baseName = sanitizeId (qBaseName path) ∧
    ((makeLoader path script o).1).m_id = sanitizeId (qBaseName path) := by
  obtain ⟨slot, raised, res⟩ := o
  by_cases hs : script = ""
  · simp [makeLoader, hs]
  · cases slot with
    | absent => cases raised <;> simp [makeLoader, hs, processUncaught]
    | nonFn v => cases raised <;> simp [makeLoader, hs, processUncaught]
    | fnSlot b => cases b <;> cases raised <;> simp [makeLoader, hs, processUncaught]

/-- Resolving a plain string-valued `name` member yields that string,
even when it is empty. -/
theorem nameOf_plain_str (l : Loader) (s : String)
    (h : propOf l.m_obj "name" = Member.plain (PVal.str s)) : (nameOf l none).1 = s := by
  simp [nameOf, stringValue, loaderValue, h, callMember, processUncaught,
    PVal.isValid, PVal.toQStr, QStr.isNull, QStr.val]

/-- Resolving an absent `name` member yields the (mutated) `m_baseName`
field. -/
theorem nameOf_absent (l : Loader)
    (h : propOf l.m_obj "name" = Member.plain PVal.invalid) :
    (nameOf l none).1 = l.m_baseName := by
  simp [nameOf, stringValue, loaderValue, h, callMember, processUncaught,
    PVal.isValid, PVal.toQStr, QStr.isNull, QStr.val]

/-- Resolving a throwing `name` member yields the `m_baseName` fallback
together with exactly one warning log event. -/
theorem nameOf_throws (l : Loader) (f : List PVal → Except PVal PVal) (e : PVal)
    (h : propOf l.m_obj "name" = Member.fn f) (he : f [] = Except.error e) :
    (nameOf l none).1 = l.m_baseName ∧
    (nameOf l none).2.2 = [mkLog l.m_id e.toQStr.val LogLevel.warning] := by
  constructor <;>
    simp [nameOf, stringValue, loaderValue, h, callMember, callFn, he, processUncaught,
      PVal.isValid]

/-- C1: evaluation of the saver chain node at a failing input.  For the
handler object whose `transformItemData` hook throws, the record
returned by the node does NOT equal the inner saver's transform output
(the thrown value, being neither `undefined` nor `null`, is marshaled
back over the record), NO log event is produced by the node, and the
engine's uncaught exception is left pending.  This contradicts the
claim that the record stays the pre-script-exception state and that
exactly one warning LogEvent is produced. -/
theorem c1_saver_hook_exception :
    ((ItemSaverScript.mk idSaver c1Obj).transformItemData none c1Rec).1 ≠
        idSaver.transformFn c1Rec ∧
    ((ItemSaverScript.mk idSaver c1Obj).transformItemData none c1Rec).2.2 = [] ∧
    ((ItemSaverScript.mk idSaver c1Obj).transformItemData none c1Rec).2.1 =
        some (PVal.errObj "Error: boom") := by
  exact ⟨by decide, rfl, rfl⟩

/-- C2 (counterexample): for the script file `my plugin!.js` and a
loaded handler object without a `name` member, `name()` returns the
sanitized identity `my_plugin_`, not the script file's base name
`my plugin!` — the constructor's `QString::replace` mutated
`m_baseName` in place. -/
theorem c2_name_fallback_counterexample :
    isLoaded ((makeLoader "my plugin!.js" "x" c2Outcome).1) = true ∧
    (nameOf ((makeLoader "my plugin!.js" "x" c2Outcome).1) none).1 = "my_plugin_" ∧
    (nameOf ((makeLoader "my plugin!.js" "x" c2Outcome).1) none).1 ≠ "my plugin!" := by
  exact ⟨rfl, by decide, by decide⟩

/-- C2 (amended): `name()` returns the member's text whenever the `name`
member resolves to a valid string value (an empty string is returned
as-is); when the member is absent, or its resolution throws (in which
case exactly one warning is logged), `name()` falls back to the file's
base name with every character outside `[A-Za-z0-9_]` replaced by
underscores — the sanitized identity, not the raw base name. -/
theorem c2_display_name (path script : String) (o : EvalOutcome) :
    (∀ s, propOf ((makeLoader path script o).1).m_obj "name" = Member.plain (PVal.str s) →
        (nameOf ((makeLoader path script o).1) none).1 = s) ∧
    (propOf ((makeLoader path script o).1).m_obj "name" = Member.plain PVal.invalid →
        (nameOf ((makeLoader path script o).1) none).1 = sanitizeId (qBaseName path)) ∧
    (∀ f e, propOf ((makeLoader path script o).1).m_obj "name" = Member.fn f →
        f [] = Except.error e →
        (nameOf ((makeLoader path script o).1) none).1 = sanitizeId (qBaseName path) ∧
        (nameOf ((makeLoader path script o).1) none).2.2 =
          [mkLog ((makeLoader path script o).1).m_id e.toQStr.val LogLevel.warning]) := by
  refine ⟨fun s h => nameOf_plain_str _ s h, ?_, ?_⟩
  · intro h
    rw [nameOf_absent _ h]
    exact (makeLoader_baseName_id path script o).1
  · intro f e h he
    obtain ⟨h1, h2⟩ := nameOf_throws _ f e h he
    exact ⟨by rw [h1]; exact (makeLoader_baseName_id path script o).1, h2⟩

/-- C2 witness: a loaded plugin from `a.js` whose handler object lacks a
`name` member has display name `a` (the sanitized base name). -/
theorem c2_display_name_witness :
    (nameOf ((makeLoader "a.js" "x" c2Outcome).1) none).1 = sanitizeId (qBaseName "a.js") :=
  (c2_display_name "a.js" "x" c2Outcome).2.1 rfl

/-- C3 (counterexample): for a script whose top-level evaluation result
is object-like but which binds no `copyq_script` factory symbol, the
handler object is the invalid value and the loader is not loaded — the
evaluation result does not serve as the HandlerObject, contradicting
the claim. -/
theorem c3_factory_counterexample :
    (c3Outcome.evalResult).isObject = true ∧
    ((makeLoader "a.js" "x" c3Outcome).1).m_obj = LVal.pv PVal.invalid ∧
    isLoaded ((makeLoader "a.js" "x" c3Outcome).1) = false := by
  exact ⟨rfl, rfl, rfl⟩

/-- C3 (amended): after evaluating a non-empty script with no pending
exception, if the `copyq_script` symbol is present and callable its
zero-argument return value becomes the HandlerObject; if it is present
but not callable, its value itself becomes the HandlerObject; if it is
absent, the HandlerObject is the invalid value (the top-level
evaluation result is discarded). -/
theorem c3_factory_resolution (path script : String) (o : EvalOutcome)
    (hs : ¬ script = "") :
    (∀ v, o.raised = none → o.factorySlot = FactorySlot.fnSlot (Except.ok v) →
        ((makeLoader path script o).1).m_obj = v) ∧
    (∀ v, o.raised = none → o.factorySlot = FactorySlot.nonFn v →
        ((makeLoader path script o).1).m_obj = v) ∧
    (o.factorySlot = FactorySlot.absent →
        ((makeLoader path script o).1).m_obj = LVal.pv PVal.invalid) := by
  obtain ⟨slot, raised, res⟩ := o
  refine ⟨?_, ?_, ?_⟩
  · rintro v rfl rfl
    simp [makeLoader, hs, processUncaught]
  · rintro v rfl rfl
    simp [makeLoader, hs, processUncaught]
  · rintro rfl
    cases raised <;> simp [makeLoader, hs, processUncaught]

/-- C3 witness: a factory function returning an empty object makes that
object the HandlerObject. -/
theorem c3_factory_resolution_witness :
    ((makeLoader "a.js" "x" c3wOutcome).1).m_obj = LVal.hobj [] :=
  (c3_factory_resolution "a.js" "x" c3wOutcome (by decide)).1 (LVal.hobj []) rfl rfl

/-- C4: the property resolver `ItemLoaderScript::value`, starting from a
clean exception state: a callable member is invoked with zero arguments
and its result is used; when the invocation throws, exactly one warning
LogEvent is emitted, the engine's exception state ends cleared, and the
result is the invalid (absent) value. -/
theorem c4_property_resolver (l : Loader) (nm : String)
    (f : List PVal → Except PVal PVal)
    (hf : propOf l.m_obj nm = Member.fn f) :
    (∀ v, f [] = Except.ok v → loaderValue l none nm = (v, none, [])) ∧
    (∀ e, f [] = Except.error e →
        loaderValue l none nm =
          (PVal.invalid, none, [mkLog l.m_id e.toQStr.val LogLevel.warning])) := by
  constructor
  · intro v hv
    simp [loaderValue, hf, callMember, callFn, hv, processUncaught]
  · intro e he
    simp [loaderValue, hf, callMember, callFn, he, processUncaught]

/-- C4 witness: a callable member returning the string "v" resolves to
that string with no log output and a clean final state. -/
theorem c4_property_resolver_witness :
    loaderValue c4Loader none "x" = (PVal.str "v", none, []) :=
  (c4_property_resolver c4Loader "x" c4fnOk rfl).1 (PVal.str "v") rfl

/-- C5: `ItemSaverScript::copyItem` first obtains the base record from
the inner saver's `copyItem` and only then applies the script hook; a
hook returning `undefined` or `null` leaves the base record unchanged,
and a hook returning a valid record replaces it. -/
theorem c5_copy_item (saver : ItemSaver) (props : HObj) (rec : ItemRecord)
    (st : EngineState) (f : List PVal → Except PVal PVal)
    (hf : propOf (LVal.hobj props) "copyItem" = Member.fn f) :
    (ItemSaverScript.mk saver (LVal.hobj props)).copyItem st rec =
        scriptTransform (LVal.hobj props) "copyItem" st (saver.copyItemFn rec) ∧
    (f [fromDataMap (saver.copyItemFn rec)] = Except.ok PVal.undef →
        ((ItemSaverScript.mk saver (LVal.hobj props)).copyItem st rec).1 =
          saver.copyItemFn rec) ∧
    (f [fromDataMap (saver.copyItemFn rec)] = Except.ok PVal.nullv →
        ((ItemSaverScript.mk saver (LVal.hobj props)).copyItem st rec).1 =
          saver.copyItemFn rec) ∧
    (∀ d, f [fromDataMap (saver.copyItemFn rec)] = Except.ok (PVal.dataObj d) →
        ((ItemSaverScript.mk saver (LVal.hobj props)).copyItem st rec).1 = d) := by
  refine ⟨rfl, ?_, ?_, ?_⟩
  · intro h
    simp [ItemSaverScript.copyItem, scriptTransform, hf, callFn, h,
      PVal.isUndefined, PVal.isNull]
  · intro h
    simp [ItemSaverScript.copyItem, scriptTransform, hf, callFn, h,
      PVal.isUndefined, PVal.isNull]
  · intro d h
    simp [ItemSaverScript.copyItem, scriptTransform, hf, callFn, h,
      PVal.isUndefined, PVal.isNull, toDataMap]

/-- C5 witness: a `copyItem` hook returning `undefined` leaves the inner
saver's record unchanged. -/
theorem c5_copy_item_witness :
    ((ItemSaverScript.mk idSaver (LVal.hobj c5Props)).copyItem none c1Rec).1 =
      idSaver.copyItemFn c1Rec :=
  (c5_copy_item idSaver c5Props c1Rec none c5fn rfl).2.1 rfl

/-- C6: `transformSaver` returns the identical inner saver when the
handler object has neither a `copyItem` nor a `transformItemData`
function member, and a fresh chain node wrapping that saver when at
least one of the two is a function. -/
theorem c6_transform_saver (l : Loader) (saver : ItemSaver) :
    ((propOf l.m_obj "copyItem").isFn = false →
        (propOf l.m_obj "transformItemData").isFn = false →
        transformSaver l saver = TransformSaverResult.unchanged saver) ∧
    ((propOf l.m_obj "copyItem").isFn = true ∨
        (propOf l.m_obj "transformItemData").isFn = true →
        transformSaver l saver =
          TransformSaverResult.wrapped (ItemSaverScript.mk saver l.m_obj)) := by
  constructor
  · intro h1 h2
    simp [transformSaver, h1, h2]
  · intro h
    rcases h with h | h <;> simp [transformSaver, h]

/-- C6 witness: a handler object with only a plain `name` member leaves
the inner saver untouched. -/
theorem c6_transform_saver_witness :
    transformSaver c6Loader idSaver = TransformSaverResult.unchanged idSaver :=
  (c6_transform_saver c6Loader idSaver).1 rfl rfl

/-- C7 (counterexample): the file name `my plugin!.js` yields the
identity `my_plugin_` (ten characters, one trailing underscore), not
`my_plugin__` as the claim states. -/
theorem c7_identity_counterexample :
    ((makeLoader "my plugin!.js" "" demoOutcome).1).m_id = "my_plugin_" ∧
    ((makeLoader "my plugin!.js" "" demoOutcome).1).m_id ≠ "my_plugin__" := by
  exact ⟨by decide, by decide⟩

/-- C7 (amended): for every script file path the loader's identity is
the file's base name with every character outside `[A-Za-z0-9_]`
replaced by `_`, fixed at construction (it depends only on the path);
in particular `my plugin!.js` yields `my_plugin_`. -/
theorem c7_identity :
    (∀ path script o, ((makeLoader path script o).1).m_id = sanitizeId (qBaseName path)) ∧
    ((makeLoader "my plugin!.js" "" demoOutcome).1).m_id = "my_plugin_" := by
  exact ⟨fun path script o => (makeLoader_baseName_id path script o).2, by decide⟩

/-- C8: a loader built from an empty source, or whose evaluation or
factory call raised an uncaught exception, is not loaded; a loader
whose handler value is not object-like is not loaded; and
`createItemLoaderScript` returns a null loader exactly when the loader
is not loaded. -/
theorem c8_loaded (path script : String) (o : EvalOutcome) :
    (script = "" → isLoaded ((makeLoader path script o).1) = false) ∧
    (∀ e, o.raised = some e → isLoaded ((makeLoader path script o).1) = false) ∧
    (∀ e, o.factorySlot = FactorySlot.fnSlot (Except.error e) →
        isLoaded ((makeLoader path script o).1) = false) ∧
    (((makeLoader path script o).1).m_obj.isObject = false →
        isLoaded ((makeLoader path script o).1) = false) ∧
    (createItemLoaderScript path script o = none ↔
        isLoaded ((makeLoader path script o).1) = false) := by
  obtain ⟨slot, raised, res⟩ := o
  refine ⟨?_, ?_, ?_, fun h => h, ?_⟩
  · intro hs
    simp [makeLoader, hs, isLoaded, LVal.isObject, PVal.isObject]
  · rintro e rfl
    by_cases hs : script = ""
    · simp [makeLoader, hs, isLoaded, LVal.isObject, PVal.isObject]
    · cases slot with
      | absent =>
          simp [makeLoader, hs, processUncaught, isLoaded, LVal.isObject, PVal.isObject]
      | nonFn v =>
          simp [makeLoader, hs, processUncaught, isLoaded, LVal.isObject, PVal.isObject]
      | fnSlot b =>
          cases b <;>
            simp [makeLoader, hs, processUncaught, isLoaded, LVal.isObject, PVal.isObject]
  · rintro e rfl
    by_cases hs : script = ""
    · simp [makeLoader, hs, isLoaded, LVal.isObject, PVal.isObject]
    · cases raised <;>
        simp [makeLoader, hs, processUncaught, isLoaded, LVal.isObject, PVal.isObject]
  · cases hb : isLoaded ((makeLoader path script (EvalOutcome.mk slot raised res)).1) <;>
      simp [createItemLoaderScript, hb]

/-- C8 witness: the empty script gives an unloaded loader and a null
result from `createItemLoaderScript`. -/
theorem c8_loaded_witness :
    isLoaded ((makeLoader "a.js" "" demoOutcome).1) = false :=
  (c8_loaded "a.js" "" demoOutcome).1 rfl

/-- C9: evaluation of the log text transformation at a failing input.
For identity `p` and the two-line text `a\nb`, the emitted text is
`scripts::p: ascripts::p: b` — the embedded newline is removed and
replaced by the label, so it is NOT followed by the prefix as the claim
states (that would give `scripts::p: a\nscripts::p: b`). -/
theorem c9_log_newline :
    logTransform "p" "a\nb" = "scripts::p: ascripts::p: b" ∧
    logTransform "p" "a\nb" ≠ "scripts::p: a" ++ "\n" ++ "scripts::p: b" := by
  exact ⟨rfl, by decide⟩

/-- C10: a sandbox message whose text is empty produces no log output at
all, for every severity code including the error, bad-syntax and
exception codes. -/
theorem c10_empty_message (idStr : String) (code : MessageCode) :
    sendMessageSlot idStr "" code = [] := by
  simp [sendMessageSlot]
